import Mathlib

/-!
Shallow embedding of `src/ktx2ArrayMerge.js` (`mergeUASTCKTX2ToArray`):
merging several single-layer UASTC KTX2 containers into one 2D-array
container.  The merge operates on already-decoded containers (the
`ktx-parse` `read`/`write` codec is the external boundary); byte payloads
are modelled as `List Nat`, JS exceptions as an `Except` error value.
-/

/-- JS `ToInt32`: reduce a (nonnegative) numeric value modulo 2^32 and
reinterpret as a signed 32-bit integer. -/
def toInt32 (n : Nat) : Int :=
  if n % 2 ^ 32 < 2 ^ 31 then ((n % 2 ^ 32 : Nat) : Int)
  else ((n % 2 ^ 32 : Nat) : Int) - 2 ^ 32

/-- JS `x >> k` on a nonnegative integer operand: `ToInt32(x)` shifted
arithmetically right by `k mod 32` (JS masks the shift count to 5 bits);
an arithmetic right shift is floor division by the power of two. -/
def jsShr (x k : Nat) : Int :=
  (toInt32 x).fdiv (2 ^ (k % 32))

/-- From the source (`uastcBytesPerImageAtLevel`): exact UASTC byte count
of one image at a mip level — `Math.max(1, w >> level)` ×
`Math.max(1, h >> level)` texels, in 4×4 blocks of 16 bytes.  `Math.ceil`
of a nonnegative quotient by 4 is `(· + 3) / 4`. -/
def uastcBytesPerImageAtLevel (w h level : Nat) : Nat :=
  let wL : Int := max 1 (jsShr w level)
  let hL : Int := max 1 (jsShr h level)
  let blocksX : Int := (wL + 3) / 4
  let blocksY : Int := (hL + 3) / 4
  (blocksX * blocksY * 16).toNat

/-- The spec's §4.2 `blockAlignedSize` formula, read with mathematical
(unbounded, nonnegative) arithmetic: `wL = max(1, width >> level)` with
`>>` as ordinary right shift on naturals, `blocksX = ceil(wL/4)`, result
`blocksX * blocksY * 16`.  Kept separate from the source-derived
`uastcBytesPerImageAtLevel` so the two can be compared. -/
def blockAlignedSizeSpec (width height level : Nat) : Nat :=
  let wL := max 1 (width >>> level)
  let hL := max 1 (height >>> level)
  let blocksX := (wL + 3) / 4
  let blocksY := (hL + 3) / 4
  blocksX * blocksY * 16

/-- One mip level of a decoded container: `levelData` is the (possibly
absent) byte payload, `uncompressedByteLength` the optional declared
logical size. -/
structure KTX2Level where
  levelData : Option (List Nat)
  uncompressedByteLength : Option Nat
  deriving DecidableEq

/-- A decoded KTX2 container as exposed by the external codec (`ktx-parse`
exposes the header fields at top level).  `keyValue` is always present on
a decoded container (the codec initialises it to an empty mapping), so it
is not optional here. -/
structure KTX2Container where
  vkFormat : Nat
  typeSize : Nat
  pixelWidth : Nat
  pixelHeight : Nat
  pixelDepth : Nat
  layerCount : Nat
  faceCount : Nat
  levelCount : Nat
  supercompressionScheme : Nat
  dataFormatDescriptor : Option (List Nat)
  keyValue : List (String × List Nat)
  globalData : Option (List Nat)
  levels : List KTX2Level
  deriving DecidableEq

/-- The failures `mergeUASTCKTX2ToArray` can raise, one constructor per
`throw` site in the source, plus the JS `TypeError` raised when the code
dereferences a property of `undefined` (empty input list, or a `levels`
array shorter than `levelCount`). -/
inductive MergeError where
  | typeErrorUndefined
  | badVkFormat
  | unsupportedScheme
  | incompatibleInputs
  | missingLevelData (layer level : Nat)
  | truncatedLevel (layer level got expected : Nat)
  deriving DecidableEq

/-- The source's validation loop (`for (let i = 1; ...)`): every container
after the first must match the reference width/height/levelCount, have
`vkFormat === 0` and the reference supercompression scheme; the error is a
single generic message. -/
def checkCompatible (w h lvls scheme : Nat) : List KTX2Container → Except MergeError Unit
  | [] => .ok ()
  | hi :: rest =>
    if hi.pixelWidth ≠ w ∨ hi.pixelHeight ≠ h ∨ hi.levelCount ≠ lvls ∨
        hi.vkFormat ≠ 0 ∨ hi.supercompressionScheme ≠ scheme then
      .error .incompatibleInputs
    else
      checkCompatible w h lvls scheme rest

/-- The source's inner layer loop at a fixed `level`: collect each layer's
(possibly trimmed) payload and accumulate `totalUnc`.  `layer` is the index
of the first container in the remaining list.  `src.levels[level]` being
absent is a JS `TypeError` (`lvl.levelData` on `undefined`); a present
level with `levelData` absent is the named missing-data error; under
scheme NONE a payload shorter than the exact UASTC size is the named
truncation error, and an adequate payload is trimmed
(`bytes.subarray(0, exact)`); under ZSTD the payload is kept verbatim and
`lvl.uncompressedByteLength ?? uastcBytesPerImageAtLevel(level)` is summed. -/
def collectParts (w h scheme level : Nat) :
    Nat → List KTX2Container → Except MergeError (List (List Nat) × Nat)
  | _, [] => .ok ([], 0)
  | layer, src :: rest =>
    match src.levels[level]? with
    | none => .error .typeErrorUndefined
    | some lvl =>
      match lvl.levelData with
      | none => .error (.missingLevelData layer level)
      | some bytes =>
        if scheme = 0 then
          let exact := uastcBytesPerImageAtLevel w h level
          if bytes.length < exact then
            .error (.truncatedLevel layer level bytes.length exact)
          else
            match collectParts w h scheme level (layer + 1) rest with
            | .error e => .error e
            | .ok (ps, tu) => .ok (bytes.take exact :: ps, tu)
        else
          match collectParts w h scheme level (layer + 1) rest with
          | .error e => .error e
          | .ok (ps, tu) =>
            .ok (bytes :: ps,
              tu + (lvl.uncompressedByteLength.getD (uastcBytesPerImageAtLevel w h level)))

/-- One iteration of the source's level loop: collect the per-layer parts,
concatenate them tightly (`merged.set(p, off)` back to back), and record
`uncompressedByteLength` — the concatenated byte length under NONE, the
accumulated `totalUnc` under ZSTD. -/
def buildLevel (w h scheme : Nat) (containers : List KTX2Container) (level : Nat) :
    Except MergeError KTX2Level :=
  match collectParts w h scheme level 0 containers with
  | .error e => .error e
  | .ok (parts, totalUnc) =>
    let merged := parts.flatten
    .ok { levelData := some merged,
          uncompressedByteLength := some (if scheme = 0 then merged.length else totalUnc) }

/-- The source's outer `for (let level = 0; ...)` loop over a given list of
level indices, stopping at the first error. -/
def buildLevelsAux (w h scheme : Nat) (containers : List KTX2Container) :
    List Nat → Except MergeError (List KTX2Level)
  | [] => .ok []
  | l :: ls =>
    match buildLevel w h scheme containers l with
    | .error e => .error e
    | .ok lv =>
      match buildLevelsAux w h scheme containers ls with
      | .error e => .error e
      | .ok rest => .ok (lv :: rest)

def buildLevels (w h scheme lvls : Nat) (containers : List KTX2Container) :
    Except MergeError (List KTX2Level) :=
  buildLevelsAux w h scheme containers (List.range lvls)

/-- The merge, over already-decoded containers.  An empty list makes the
JS source read `pixelWidth` of `containers[0] === undefined` — a
`TypeError`.  Then: `vkFormat` and scheme checks on the reference, the
compatibility loop, the level loop, and the output record.  The output
copies the reference's fields, with `typeSize: H.typeSize || 1` (JS `||`
turns a zero `typeSize` into 1), `dataFormatDescriptor` verbatim,
`keyValue: H.keyValue || \x7b\x7d` (the fallback cannot fire for a decoded
container, whose `keyValue` object is always present and truthy), and
`globalData: null`.  The source's final scheme-NONE size check only emits
a `console.warn` and never changes the result, so it does not appear
here. -/
def mergeUASTCKTX2ToArray (containers : List KTX2Container) :
    Except MergeError KTX2Container :=
  match containers with
  | [] => .error .typeErrorUndefined
  | H :: rest =>
    if H.vkFormat ≠ 0 then .error .badVkFormat
    else if H.supercompressionScheme ≠ 0 ∧ H.supercompressionScheme ≠ 2 then
      .error .unsupportedScheme
    else
      match checkCompatible H.pixelWidth H.pixelHeight H.levelCount
          H.supercompressionScheme rest with
      | .error e => .error e
      | .ok _ =>
        match buildLevels H.pixelWidth H.pixelHeight H.supercompressionScheme
            H.levelCount (H :: rest) with
        | .error e => .error e
        | .ok mergedLevels =>
          .ok { vkFormat := 0
                typeSize := if H.typeSize = 0 then 1 else H.typeSize
                pixelWidth := H.pixelWidth
                pixelHeight := H.pixelHeight
                pixelDepth := 0
                layerCount := containers.length
                faceCount := 1
                levelCount := H.levelCount
                supercompressionScheme := H.supercompressionScheme
                dataFormatDescriptor := H.dataFormatDescriptor
                keyValue := H.keyValue
                globalData := none
                levels := mergedLevels }

/-! Derived observation helpers used to state the claims. -/

/-- The payload the source reads for container `c` at `level`
(`src.levels[level].levelData`), defaulting to `[]` where absent. -/
def payloadAt (c : KTX2Container) (level : Nat) : List Nat :=
  match c.levels[level]? with
  | some lvl => lvl.levelData.getD []
  | none => []

/-- The bytes container `c` contributes to the merged payload of `level`:
trimmed to the exact UASTC size under scheme NONE, verbatim otherwise. -/
def trimmedPayloadAt (w h scheme level : Nat) (c : KTX2Container) : List Nat :=
  if scheme = 0 then (payloadAt c level).take (uastcBytesPerImageAtLevel w h level)
  else payloadAt c level

/-- Container `c`'s contribution to the merged logical size of `level`
under ZSTD: the declared `uncompressedByteLength`, falling back to the
block-aligned size when the field is absent. -/
def levelUncOf (w h level : Nat) (c : KTX2Container) : Nat :=
  match c.levels[level]? with
  | some lvl => lvl.uncompressedByteLength.getD (uastcBytesPerImageAtLevel w h level)
  | none => uastcBytesPerImageAtLevel w h level

/-- The merged level record a successful merge produces at `level`. -/
def mergedLevelAt (w h scheme : Nat) (cs : List KTX2Container) (level : Nat) : KTX2Level :=
  let parts := cs.map (trimmedPayloadAt w h scheme level)
  { levelData := some parts.flatten
    uncompressedByteLength :=
      some (if scheme = 0 then parts.flatten.length
            else (cs.map (levelUncOf w h level)).sum) }

/-- Container `c` lets the layer loop proceed at `level`: the level record
and its payload are present, and under scheme NONE the payload is at least
the exact UASTC size. -/
def goodAt (w h scheme level : Nat) (c : KTX2Container) : Bool :=
  match c.levels[level]? with
  | none => false
  | some lvl =>
    match lvl.levelData with
    | none => false
    | some bytes => scheme ≠ 0 || uastcBytesPerImageAtLevel w h level ≤ bytes.length

/-- A container agrees with reference `H` on every field the validation
loop inspects. -/
def matchesRef (H c : KTX2Container) : Prop :=
  c.pixelWidth = H.pixelWidth ∧ c.pixelHeight = H.pixelHeight ∧
  c.levelCount = H.levelCount ∧ c.vkFormat = 0 ∧
  c.supercompressionScheme = H.supercompressionScheme

instance (H c : KTX2Container) : Decidable (matchesRef H c) := by
  unfold matchesRef; infer_instance

/-- The reference container passes the two header checks. -/
def headerOk (H : KTX2Container) : Prop :=
  H.vkFormat = 0 ∧ (H.supercompressionScheme = 0 ∨ H.supercompressionScheme = 2)

instance (H : KTX2Container) : Decidable (headerOk H) := by
  unfold headerOk; infer_instance

instance {ε α : Type} [DecidableEq ε] [DecidableEq α] : DecidableEq (Except ε α) := fun x y =>
  match x, y with
  | .ok a, .ok b =>
    if h : a = b then isTrue (by rw [h]) else isFalse (fun hc => h (Except.ok.inj hc))
  | .error a, .error b =>
    if h : a = b then isTrue (by rw [h]) else isFalse (fun hc => h (Except.error.inj hc))
  | .ok _, .error _ => isFalse (fun hc => Except.noConfusion hc)
  | .error _, .ok _ => isFalse (fun hc => Except.noConfusion hc)

/-- Did the merge succeed? -/
def exceptOk (r : Except MergeError KTX2Container) : Bool :=
  match r with
  | .ok _ => true
  | .error _ => false

/-- The output container of a successful merge. -/
def okOut (r : Except MergeError KTX2Container) : Option KTX2Container :=
  match r with
  | .ok o => some o
  | .error _ => none

/-- The merged level record at index `L` of a successful merge. -/
def outLevel (r : Except MergeError KTX2Container) (L : Nat) : Option KTX2Level :=
  match r with
  | .ok o => o.levels[L]?
  | .error _ => none

/-! Helper lemmas about the pipeline stages. -/

theorem goodAt_iff (w h scheme level : Nat) (c : KTX2Container) :
    goodAt w h scheme level c = true ↔
      ∃ lvl, c.levels[level]? = some lvl ∧ ∃ bytes, lvl.levelData = some bytes ∧
        (scheme = 0 → uastcBytesPerImageAtLevel w h level ≤ bytes.length) := by
  unfold goodAt
  cases hl : c.levels[level]? with
  | none => simp [hl]
  | some lvl =>
    cases hd : lvl.levelData with
    | none => simp [hl, hd]
    | some bytes =>
      simp only [hl, hd, Option.some.injEq, Bool.or_eq_true, decide_eq_true_eq]
      constructor
      · rintro (hs | hle)
        · exact ⟨lvl, rfl, bytes, hd, fun h0 => absurd h0 hs⟩
        · exact ⟨lvl, rfl, bytes, hd, fun _ => hle⟩
      · rintro ⟨lvl', hl', bytes', hd', himp⟩
        subst hl'
        rw [hd] at hd'
        obtain rfl : bytes = bytes' := by injection hd'
        by_cases hs : scheme = 0
        · exact Or.inr (himp hs)
        · exact Or.inl hs

theorem payloadAt_eq (c : KTX2Container) (level : Nat) (lvl : KTX2Level) (bytes : List Nat)
    (hl : c.levels[level]? = some lvl) (hd : lvl.levelData = some bytes) :
    payloadAt c level = bytes := by
  unfold payloadAt
  simp only [hl, hd, Option.getD_some]

theorem levelUncOf_eq (w h level : Nat) (c : KTX2Container) (lvl : KTX2Level)
    (hl : c.levels[level]? = some lvl) :
    levelUncOf w h level c =
      lvl.uncompressedByteLength.getD (uastcBytesPerImageAtLevel w h level) := by
  unfold levelUncOf
  simp only [hl]

theorem checkCompatible_ok_iff (w h lvls scheme : Nat) (rest : List KTX2Container) :
    checkCompatible w h lvls scheme rest = .ok () ↔
      ∀ c ∈ rest, c.pixelWidth = w ∧ c.pixelHeight = h ∧ c.levelCount = lvls ∧
        c.vkFormat = 0 ∧ c.supercompressionScheme = scheme := by
  induction rest with
  | nil => simp [checkCompatible]
  | cons hi tl ih =>
    rw [checkCompatible]
    split
    next hcond =>
      simp only [List.mem_cons]
      constructor
      · intro hcon; exact absurd hcon (by simp)
      · intro hall
        rcases hall hi (Or.inl rfl) with ⟨h1, h2, h3, h4, h5⟩
        rcases hcond with hc | hc | hc | hc | hc <;> exact absurd (by assumption) hc
    next hcond =>
      push_neg at hcond
      rcases hcond with ⟨h1, h2, h3, h4, h5⟩
      rw [ih]
      constructor
      · intro hall c hc
        rcases List.mem_cons.mp hc with rfl | hc
        · exact ⟨h1, h2, h3, h4, h5⟩
        · exact hall c hc
      · intro hall c hc
        exact hall c (List.mem_cons_of_mem _ hc)

theorem checkCompatible_ok_or_error (w h lvls scheme : Nat) (rest : List KTX2Container) :
    checkCompatible w h lvls scheme rest = .ok () ∨
      checkCompatible w h lvls scheme rest = .error .incompatibleInputs := by
  induction rest with
  | nil => exact Or.inl rfl
  | cons hi tl ih =>
    rw [checkCompatible]
    split
    · exact Or.inr rfl
    · exact ih

theorem checkCompatible_error_of_mismatch (w h lvls scheme : Nat)
    (rest : List KTX2Container)
    (hbad : ¬ ∀ c ∈ rest, c.pixelWidth = w ∧ c.pixelHeight = h ∧ c.levelCount = lvls ∧
      c.vkFormat = 0 ∧ c.supercompressionScheme = scheme) :
    checkCompatible w h lvls scheme rest = .error .incompatibleInputs := by
  rcases checkCompatible_ok_or_error w h lvls scheme rest with hok | herr
  · exact absurd ((checkCompatible_ok_iff w h lvls scheme rest).mp hok) hbad
  · exact herr

theorem collectParts_ok (w h scheme level : Nat) (cs : List KTX2Container)
    (hg : ∀ c ∈ cs, goodAt w h scheme level c = true) (layer : Nat) :
    collectParts w h scheme level layer cs =
      .ok (cs.map (trimmedPayloadAt w h scheme level),
           if scheme = 0 then 0 else (cs.map (levelUncOf w h level)).sum) := by
  induction cs generalizing layer with
  | nil => simp [collectParts]
  | cons c tl ih =>
    obtain ⟨lvl, hl, bytes, hd, hlen⟩ :=
      (goodAt_iff w h scheme level c).mp (hg c (List.mem_cons_self _ _))
    have htl : ∀ d ∈ tl, goodAt w h scheme level d = true :=
      fun d hd' => hg d (List.mem_cons_of_mem _ hd')
    have hpay : payloadAt c level = bytes := payloadAt_eq c level lvl bytes hl hd
    simp only [collectParts, hl, hd]
    by_cases hs : scheme = 0
    · rw [if_pos hs, if_neg (Nat.not_lt.mpr (hlen hs)), ih htl (layer + 1)]
      simp [trimmedPayloadAt, hs, hpay]
    · rw [if_neg hs, ih htl (layer + 1)]
      rw [if_neg hs, if_neg hs]
      simp only [List.map_cons, List.sum_cons]
      rw [levelUncOf_eq w h level c lvl hl]
      simp [trimmedPayloadAt, hs, hpay, Nat.add_comm]

/-- If every container before position `pre.length` is good at `level` but the
container there has a present level record with an absent payload, the layer
loop stops with the missing-data error naming that layer and level. -/
theorem collectParts_missing (w h scheme level : Nat) (pre : List KTX2Container)
    (c : KTX2Container) (post : List KTX2Container) (lvl : KTX2Level)
    (hpre : ∀ d ∈ pre, goodAt w h scheme level d = true)
    (hl : c.levels[level]? = some lvl) (hd : lvl.levelData = none) (layer : Nat) :
    collectParts w h scheme level layer (pre ++ c :: post) =
      .error (.missingLevelData (layer + pre.length) level) := by
  induction pre generalizing layer with
  | nil =>
    simp only [List.nil_append, List.length_nil, Nat.add_zero]
    simp only [collectParts, hl, hd]
  | cons d tl ih =>
    obtain ⟨lvld, hld, bytesd, hdd, hlend⟩ :=
      (goodAt_iff w h scheme level d).mp (hpre d (List.mem_cons_self _ _))
    have htl : ∀ x ∈ tl, goodAt w h scheme level x = true :=
      fun x hx => hpre x (List.mem_cons_of_mem _ hx)
    have harith : (layer + 1) + tl.length = layer + (d :: tl).length := by
      simp [List.length_cons]; omega
    simp only [List.cons_append, collectParts, hld, hdd, List.append_eq]
    by_cases hs : scheme = 0
    · rw [if_pos hs, if_neg (Nat.not_lt.mpr (hlend hs)), ih htl (layer + 1), harith]
    · rw [if_neg hs, ih htl (layer + 1), harith]

/-- If every container before position `pre.length` is good at `level` under
scheme NONE but the container there has a payload shorter than the exact
UASTC size, the layer loop stops with the truncation error naming that
layer, level, actual and expected size. -/
theorem collectParts_truncated (w h level : Nat) (pre : List KTX2Container)
    (c : KTX2Container) (post : List KTX2Container) (lvl : KTX2Level) (bytes : List Nat)
    (hpre : ∀ d ∈ pre, goodAt w h 0 level d = true)
    (hl : c.levels[level]? = some lvl) (hd : lvl.levelData = some bytes)
    (hshort : bytes.length < uastcBytesPerImageAtLevel w h level) (layer : Nat) :
    collectParts w h 0 level layer (pre ++ c :: post) =
      .error (.truncatedLevel (layer + pre.length) level bytes.length
        (uastcBytesPerImageAtLevel w h level)) := by
  induction pre generalizing layer with
  | nil =>
    simp only [List.nil_append, List.length_nil, Nat.add_zero]
    simp only [collectParts, hl, hd]
    rw [if_pos trivial, if_pos hshort]
  | cons d tl ih =>
    obtain ⟨lvld, hld, bytesd, hdd, hlend⟩ :=
      (goodAt_iff w h 0 level d).mp (hpre d (List.mem_cons_self _ _))
    have htl : ∀ x ∈ tl, goodAt w h 0 level x = true :=
      fun x hx => hpre x (List.mem_cons_of_mem _ hx)
    have harith : (layer + 1) + tl.length = layer + (d :: tl).length := by
      simp [List.length_cons]; omega
    simp only [List.cons_append, collectParts, hld, hdd, List.append_eq]
    rw [if_pos trivial, if_neg (Nat.not_lt.mpr (hlend rfl)), ih htl (layer + 1), harith]

/-- When every container is good at `level`, one iteration of the level loop
produces exactly the merged level record. -/
theorem buildLevel_ok (w h scheme : Nat) (cs : List KTX2Container) (level : Nat)
    (hg : ∀ c ∈ cs, goodAt w h scheme level c = true) :
    buildLevel w h scheme cs level = .ok (mergedLevelAt w h scheme cs level) := by
  unfold buildLevel mergedLevelAt
  rw [collectParts_ok w h scheme level cs hg 0]
  by_cases hs : scheme = 0 <;> simp [hs]

/-- A failing iteration of the level loop propagates its error. -/
theorem buildLevel_error (w h scheme : Nat) (cs : List KTX2Container) (level : Nat)
    (e : MergeError) (hc : collectParts w h scheme level 0 cs = .error e) :
    buildLevel w h scheme cs level = .error e := by
  unfold buildLevel
  rw [hc]

/-- The level loop over indices `ls` succeeds with the merged level records
when every listed level is good for every container. -/
theorem buildLevelsAux_ok (w h scheme : Nat) (cs : List KTX2Container) (ls : List Nat)
    (hg : ∀ l ∈ ls, ∀ c ∈ cs, goodAt w h scheme l c = true) :
    buildLevelsAux w h scheme cs ls = .ok (ls.map (mergedLevelAt w h scheme cs)) := by
  induction ls with
  | nil => rfl
  | cons l ls ih =>
    have h0 := buildLevel_ok w h scheme cs l (hg l (List.mem_cons_self _ _))
    have hls := ih (fun x hx c hc => hg x (List.mem_cons_of_mem _ hx) c hc)
    simp only [buildLevelsAux, h0, hls, List.map_cons]

/-- The level loop stops at the first level whose iteration fails. -/
theorem buildLevelsAux_error (w h scheme : Nat) (cs : List KTX2Container)
    (ls1 : List Nat) (l0 : Nat) (ls2 : List Nat) (e : MergeError)
    (hgood : ∀ l ∈ ls1, ∀ c ∈ cs, goodAt w h scheme l c = true)
    (h0 : buildLevel w h scheme cs l0 = .error e) :
    buildLevelsAux w h scheme cs (ls1 ++ l0 :: ls2) = .error e := by
  induction ls1 with
  | nil => simp only [List.nil_append, buildLevelsAux, h0]
  | cons l ls ih =>
    have hok := buildLevel_ok w h scheme cs l (hgood l (List.mem_cons_self _ _))
    have htl := ih (fun x hx c hc => hgood x (List.mem_cons_of_mem _ hx) c hc)
    simp only [List.cons_append, buildLevelsAux, hok, htl, List.append_eq]

/-- Splitting `List.range lvls` at an interior index. -/
theorem range_split (level lvls : Nat) (h : level < lvls) :
    List.range lvls =
      List.range level ++ level ::
        ((List.range (lvls - level - 1)).map (fun i => level + 1 + i)) := by
  obtain ⟨r, rfl⟩ : ∃ r, lvls = level + (1 + r) := ⟨lvls - level - 1, by omega⟩
  have hr2 : level + (1 + r) - level - 1 = r := by omega
  rw [hr2, List.range_add]
  congr 1
  have h1 : 1 + r = r + 1 := by omega
  rw [h1]
  have h2 : List.range (r + 1) = 0 :: (List.range r).map (· + 1) := by
    simpa using List.range_succ_eq_map r
  rw [h2, List.map_cons, List.map_map]
  simp only [Nat.add_zero]
  congr 1
  refine List.map_congr_left fun i _ => ?_
  simp only [Function.comp_apply]
  omega

/-- A successful level loop returns one record per requested level. -/
theorem buildLevelsAux_length (w h scheme : Nat) (cs : List KTX2Container)
    (ls : List Nat) (res : List KTX2Level)
    (hok : buildLevelsAux w h scheme cs ls = .ok res) : res.length = ls.length := by
  induction ls generalizing res with
  | nil =>
    simp only [buildLevelsAux] at hok
    obtain rfl : [] = res := by injection hok
    rfl
  | cons l ls ih =>
    simp only [buildLevelsAux] at hok
    cases h0 : buildLevel w h scheme cs l with
    | error e => rw [h0] at hok; exact absurd hok (by simp)
    | ok lv =>
      rw [h0] at hok
      cases hrest : buildLevelsAux w h scheme cs ls with
      | error e => rw [hrest] at hok; exact absurd hok (by simp)
      | ok rest =>
        rw [hrest] at hok
        obtain rfl : lv :: rest = res := by injection hok
        simp [ih rest hrest]

/-- Master success characterization: with a well-formed reference header,
compatible inputs, and every payload present (and adequate under NONE), the
merge returns exactly the output record the source builds. -/
theorem merge_ok_char (H : KTX2Container) (rest : List KTX2Container)
    (hvk : H.vkFormat = 0)
    (hsch : H.supercompressionScheme = 0 ∨ H.supercompressionScheme = 2)
    (hc : ∀ c ∈ rest, matchesRef H c)
    (hg : ∀ level < H.levelCount, ∀ c ∈ H :: rest,
      goodAt H.pixelWidth H.pixelHeight H.supercompressionScheme level c = true) :
    mergeUASTCKTX2ToArray (H :: rest) = .ok
      { vkFormat := 0
        typeSize := if H.typeSize = 0 then 1 else H.typeSize
        pixelWidth := H.pixelWidth
        pixelHeight := H.pixelHeight
        pixelDepth := 0
        layerCount := rest.length + 1
        faceCount := 1
        levelCount := H.levelCount
        supercompressionScheme := H.supercompressionScheme
        dataFormatDescriptor := H.dataFormatDescriptor
        keyValue := H.keyValue
        globalData := none
        levels := (List.range H.levelCount).map
          (mergedLevelAt H.pixelWidth H.pixelHeight H.supercompressionScheme (H :: rest)) } := by
  have hcc : checkCompatible H.pixelWidth H.pixelHeight H.levelCount
      H.supercompressionScheme rest = .ok () :=
    (checkCompatible_ok_iff _ _ _ _ rest).mpr (fun c hcm => hc c hcm)
  have hbl : buildLevels H.pixelWidth H.pixelHeight H.supercompressionScheme
      H.levelCount (H :: rest) = .ok ((List.range H.levelCount).map
        (mergedLevelAt H.pixelWidth H.pixelHeight H.supercompressionScheme (H :: rest))) := by
    unfold buildLevels
    exact buildLevelsAux_ok _ _ _ _ _ (fun l hl c hcm => hg l (List.mem_range.mp hl) c hcm)
  have hnot : ¬ (H.supercompressionScheme ≠ 0 ∧ H.supercompressionScheme ≠ 2) := by
    rcases hsch with h0 | h2
    · intro hcon; exact hcon.1 h0
    · intro hcon; exact hcon.2 h2
  rw [mergeUASTCKTX2ToArray]
  rw [if_neg (by rw [hvk]; exact fun hcon => hcon rfl), if_neg hnot]
  simp only [hcc, hbl, List.length_cons]

/-- A failing compatibility check makes the whole merge fail with the same
error (the level loop is never entered). -/
theorem merge_error_of_checkCompatible (H : KTX2Container) (rest : List KTX2Container)
    (hvk : H.vkFormat = 0)
    (hsch : H.supercompressionScheme = 0 ∨ H.supercompressionScheme = 2)
    (e : MergeError)
    (hcc : checkCompatible H.pixelWidth H.pixelHeight H.levelCount
      H.supercompressionScheme rest = .error e) :
    mergeUASTCKTX2ToArray (H :: rest) = .error e := by
  have hnot : ¬ (H.supercompressionScheme ≠ 0 ∧ H.supercompressionScheme ≠ 2) := by
    rcases hsch with h0 | h2
    · intro hcon; exact hcon.1 h0
    · intro hcon; exact hcon.2 h2
  rw [mergeUASTCKTX2ToArray]
  rw [if_neg (by rw [hvk]; exact fun hcon => hcon rfl), if_neg hnot]
  simp only [hcc]

/-- A failing level loop makes the whole merge fail with the same error. -/
theorem merge_error_of_buildLevels (H : KTX2Container) (rest : List KTX2Container)
    (hvk : H.vkFormat = 0)
    (hsch : H.supercompressionScheme = 0 ∨ H.supercompressionScheme = 2)
    (hc : ∀ c ∈ rest, matchesRef H c) (e : MergeError)
    (hbl : buildLevels H.pixelWidth H.pixelHeight H.supercompressionScheme
      H.levelCount (H :: rest) = .error e) :
    mergeUASTCKTX2ToArray (H :: rest) = .error e := by
  have hcc : checkCompatible H.pixelWidth H.pixelHeight H.levelCount
      H.supercompressionScheme rest = .ok () :=
    (checkCompatible_ok_iff _ _ _ _ rest).mpr (fun c hcm => hc c hcm)
  have hnot : ¬ (H.supercompressionScheme ≠ 0 ∧ H.supercompressionScheme ≠ 2) := by
    rcases hsch with h0 | h2
    · intro hcon; exact hcon.1 h0
    · intro hcon; exact hcon.2 h2
  rw [mergeUASTCKTX2ToArray]
  rw [if_neg (by rw [hvk]; exact fun hcon => hcon rfl), if_neg hnot]
  simp only [hcc, hbl]

/-- Inversion: anything a successful merge tells us about its output record. -/
theorem merge_ok_inv (cs : List KTX2Container) (out : KTX2Container)
    (hm : mergeUASTCKTX2ToArray cs = .ok out) :
    ∃ H rest, cs = H :: rest ∧
      (∀ c ∈ rest, matchesRef H c) ∧
      out.vkFormat = 0 ∧
      out.typeSize = (if H.typeSize = 0 then 1 else H.typeSize) ∧
      out.pixelWidth = H.pixelWidth ∧
      out.pixelHeight = H.pixelHeight ∧
      out.pixelDepth = 0 ∧
      out.layerCount = cs.length ∧
      out.faceCount = 1 ∧
      out.levelCount = H.levelCount ∧
      out.supercompressionScheme = H.supercompressionScheme ∧
      out.dataFormatDescriptor = H.dataFormatDescriptor ∧
      out.keyValue = H.keyValue ∧
      out.globalData = none ∧
      out.levels.length = H.levelCount := by
  cases cs with
  | nil => exact absurd hm (by rw [mergeUASTCKTX2ToArray]; simp)
  | cons H rest =>
    refine ⟨H, rest, rfl, ?_⟩
    rw [mergeUASTCKTX2ToArray] at hm
    by_cases hvk : H.vkFormat ≠ 0
    · rw [if_pos hvk] at hm; exact absurd hm (by simp)
    rw [if_neg hvk] at hm
    by_cases hsch : H.supercompressionScheme ≠ 0 ∧ H.supercompressionScheme ≠ 2
    · rw [if_pos hsch] at hm; exact absurd hm (by simp)
    rw [if_neg hsch] at hm
    cases hcc : checkCompatible H.pixelWidth H.pixelHeight H.levelCount
        H.supercompressionScheme rest with
    | error e => rw [hcc] at hm; exact absurd hm (by simp)
    | ok u =>
      rw [hcc] at hm
      cases hbl : buildLevels H.pixelWidth H.pixelHeight H.supercompressionScheme
          H.levelCount (H :: rest) with
      | error e => rw [hbl] at hm; exact absurd hm (by simp)
      | ok lvls =>
        rw [hbl] at hm
        have hout := (Except.ok.inj hm).symm
        have hcompat : ∀ c ∈ rest, matchesRef H c := by
          cases u
          exact (checkCompatible_ok_iff _ _ _ _ rest).mp hcc
        have hlen : lvls.length = H.levelCount := by
          have := buildLevelsAux_length _ _ _ _ (List.range H.levelCount) lvls hbl
          simpa using this
        subst hout
        exact ⟨hcompat, rfl, rfl, rfl, rfl, rfl, by simp, rfl, rfl, rfl, rfl, rfl, rfl, hlen⟩

/-! Concrete fixture containers for counterexamples and witnesses. -/

/-- A level with a present payload of `len` bytes (value 7) and no declared
logical size. -/
def mkLevel (len : Nat) : KTX2Level :=
  { levelData := some (List.replicate len 7), uncompressedByteLength := none }

/-- A minimal well-formed 4×4, one-level, scheme-NONE container; its level-0
exact UASTC size is 16 bytes. -/
def baseNone : KTX2Container :=
  { vkFormat := 0, typeSize := 1, pixelWidth := 4, pixelHeight := 4, pixelDepth := 0,
    layerCount := 0, faceCount := 1, levelCount := 1, supercompressionScheme := 0,
    dataFormatDescriptor := none, keyValue := [], globalData := none,
    levels := [mkLevel 16] }

/-- Like `baseNone` but with ZSTD supercompression and a 3-byte compressed
payload declaring a 100-byte logical size. -/
def baseZstd : KTX2Container :=
  { baseNone with
    supercompressionScheme := 2
    levels := [{ levelData := some [1, 2, 3], uncompressedByteLength := some 100 }] }

/-- A container that declares one level but whose decoded `levels` array is
empty, so the level loop dereferences `undefined`. -/
def shortLevels : KTX2Container := { baseNone with levels := [] }

/-- C3 counterexample input: at `level = 32` the source's JS shift masks the
shift count to 0 (`64 >> 32 === 64`), while the spec formula's natural-number
shift yields 0, so the two sizes differ (4096 vs 16). -/
theorem C3_shift_semantics_cex :
    uastcBytesPerImageAtLevel 64 64 32 = 4096 ∧ blockAlignedSizeSpec 64 64 32 = 16 ∧
    uastcBytesPerImageAtLevel 64 64 32 ≠ blockAlignedSizeSpec 64 64 32 := by
  refine ⟨by decide, by decide, by decide⟩

/-- C3 (amended): for widths and heights below 2^31 and levels below 32 —
the range where the JS 32-bit signed shift agrees with the mathematical
shift — `uastcBytesPerImageAtLevel` equals the spec's `blockAlignedSize`
formula; moreover `blockAlignedSize(64,64,0) = 4096`, and the function is
deterministic. -/
theorem C3_blockAlignedSize :
    (∀ w h l : Nat, w < 2 ^ 31 → h < 2 ^ 31 → l < 32 →
      uastcBytesPerImageAtLevel w h l = blockAlignedSizeSpec w h l) ∧
    uastcBytesPerImageAtLevel 64 64 0 = 4096 ∧
    (∀ w1 h1 l1 w2 h2 l2 : Nat, w1 = w2 → h1 = h2 → l1 = l2 →
      uastcBytesPerImageAtLevel w1 h1 l1 = uastcBytesPerImageAtLevel w2 h2 l2) := by
  have key : ∀ x l : Nat, x < 2 ^ 31 → l < 32 → jsShr x l = ((x >>> l : Nat) : Int) := by
    intro x l hx hl
    unfold jsShr toInt32
    have h1 : x % 2 ^ 32 = x := Nat.mod_eq_of_lt (by omega)
    rw [h1, if_pos hx, Nat.mod_eq_of_lt hl, Nat.shiftRight_eq_div_pow]
    have h2 : (2 : Int) ^ l = ((2 ^ l : Nat) : Int) := by push_cast; ring
    rw [h2]
    exact (Int.ofNat_fdiv x (2 ^ l)).symm
  refine ⟨?_, by decide, ?_⟩
  · intro w h l hw hh hl
    unfold uastcBytesPerImageAtLevel blockAlignedSizeSpec
    rw [key w l hw hl, key h l hh hl]
    show ((max 1 ((w >>> l : Nat) : Int) + 3) / 4 *
        ((max 1 ((h >>> l : Nat) : Int) + 3) / 4) * 16).toNat =
      (max 1 (w >>> l) + 3) / 4 * ((max 1 (h >>> l) + 3) / 4) * 16
    have hmain :
        (max 1 ((w >>> l : Nat) : Int) + 3) / 4 * ((max 1 ((h >>> l : Nat) : Int) + 3) / 4) * 16 =
          (((max 1 (w >>> l) + 3) / 4 * ((max 1 (h >>> l) + 3) / 4) * 16 : Nat) : Int) := by
      push_cast
      ring
    rw [hmain]
    exact Int.toNat_natCast _
  · intro w1 h1 l1 w2 h2 l2 hw hh hl
    subst hw; subst hh; subst hl
    rfl

/-- C3 witness: the amended equality applied at width 64, height 64,
level 0. -/
theorem C3_blockAlignedSize_witness :
    uastcBytesPerImageAtLevel 64 64 0 = blockAlignedSizeSpec 64 64 0 :=
  C3_blockAlignedSize.1 64 64 0 (by decide) (by decide) (by decide)

/-- C6 counterexample: the empty input list does make the merge fail, but
with the generic JS `TypeError` of dereferencing `undefined` — the very
same error value a non-empty input list (one container whose decoded
`levels` array is shorter than its `levelCount`) produces — not a dedicated
no-inputs error. -/
theorem C6_no_dedicated_error_cex :
    mergeUASTCKTX2ToArray [] = .error .typeErrorUndefined ∧
    mergeUASTCKTX2ToArray [shortLevels] = .error .typeErrorUndefined := by
  refine ⟨rfl, by decide⟩

/-- C6 (amended): the merge fails on the empty input list and produces no
output, but via the generic `TypeError` raised when reading a property of
the absent reference container, not a dedicated NoInputs error. -/
theorem C6_empty_input :
    mergeUASTCKTX2ToArray [] = .error .typeErrorUndefined := rfl

/-- A container identical to `baseNone` except for `typeSize = 0`. -/
def zeroTypeSize : KTX2Container := { baseNone with typeSize := 0 }

/-- C9 counterexample: an input with `typeSize = 0` merges successfully, but
the output's `typeSize` is 1, not the input's 0 — the source writes
`typeSize: H.typeSize || 1`, so 0 is not copied through unchanged. -/
theorem C9_typeSize_cex :
    zeroTypeSize.typeSize = 0 ∧
    (okOut (mergeUASTCKTX2ToArray [zeroTypeSize])).map (fun o => o.typeSize) = some 1 := by
  refine ⟨rfl, by decide⟩

/-- C9 (amended): the output's `typeSize` equals the first input's
`typeSize` when that is nonzero, and 1 when it is zero (`H.typeSize || 1`). -/
theorem C9_typeSize (cs : List KTX2Container) (H : KTX2Container)
    (hhead : cs.head? = some H)
    (hok : exceptOk (mergeUASTCKTX2ToArray cs) = true) :
    (okOut (mergeUASTCKTX2ToArray cs)).map (fun o => o.typeSize) =
      some (if H.typeSize = 0 then 1 else H.typeSize) := by
  cases hm : mergeUASTCKTX2ToArray cs with
  | error e => rw [hm] at hok; exact absurd hok (by simp [exceptOk])
  | ok out =>
    obtain ⟨H', rest, hcs, _, _, hts, _⟩ := merge_ok_inv cs out hm
    subst hcs
    have hH : H = H' := by
      rw [List.head?_cons] at hhead
      exact (Option.some.inj hhead).symm
    subst hH
    simp [okOut, hts]

/-- C9 witness: the amended statement at a concrete zero-`typeSize` input. -/
theorem C9_typeSize_witness :
    (okOut (mergeUASTCKTX2ToArray [zeroTypeSize])).map (fun o => o.typeSize) =
      some (if zeroTypeSize.typeSize = 0 then 1 else zeroTypeSize.typeSize) :=
  C9_typeSize [zeroTypeSize] zeroTypeSize (by decide) (by decide)

/-- Containers identical to `baseNone` except for their `typeSize`. -/
def typeSizeFive : KTX2Container := { baseNone with typeSize := 5 }

def typeSizeSeven : KTX2Container := { baseNone with typeSize := 7 }

/-- C4 counterexample: two inputs that differ only in `typeSize` (a field
the claim says is validated) are accepted and produce an output — the
source's validation loop never compares `typeSize`. -/
theorem C4_typeSize_not_checked_cex :
    typeSizeFive.typeSize ≠ typeSizeSeven.typeSize ∧
    typeSizeFive.pixelWidth = typeSizeSeven.pixelWidth ∧
    typeSizeFive.pixelHeight = typeSizeSeven.pixelHeight ∧
    typeSizeFive.levelCount = typeSizeSeven.levelCount ∧
    typeSizeFive.supercompressionScheme = typeSizeSeven.supercompressionScheme ∧
    exceptOk (mergeUASTCKTX2ToArray [typeSizeFive, typeSizeSeven]) = true := by
  decide

/-- C4 (amended): a later input differing from input 0 in `pixelWidth`,
`pixelHeight`, `levelCount`, `pixelFormatTag` (`vkFormat`), or
`secondaryCompressionScheme` is rejected with the single generic
incompatibility error — which names neither the offending input index nor
the field — and no output is produced; `typeSize` is not validated. -/
theorem C4_mismatch_rejected (H : KTX2Container) (rest : List KTX2Container)
    (hvk : H.vkFormat = 0)
    (hsch : H.supercompressionScheme = 0 ∨ H.supercompressionScheme = 2)
    (hbad : ∃ c ∈ rest, ¬ matchesRef H c) :
    mergeUASTCKTX2ToArray (H :: rest) = .error .incompatibleInputs := by
  apply merge_error_of_checkCompatible H rest hvk hsch
  apply checkCompatible_error_of_mismatch
  intro hall
  obtain ⟨c, hc, hbadc⟩ := hbad
  exact hbadc (hall c hc)

/-- A container identical to `baseNone` except for a wider `pixelWidth`. -/
def wideInput : KTX2Container := { baseNone with pixelWidth := 8 }

/-- C4 witness: a width mismatch at input 1 is rejected with the generic
incompatibility error. -/
theorem C4_mismatch_rejected_witness :
    mergeUASTCKTX2ToArray [baseNone, wideInput] = .error .incompatibleInputs :=
  C4_mismatch_rejected baseNone [wideInput] (by decide) (Or.inl rfl)
    ⟨wideInput, by decide, by decide⟩

theorem sum_map_const_of {α : Type} (cs : List α) (f : α → Nat) (k : Nat)
    (h : ∀ c ∈ cs, f c = k) : (cs.map f).sum = cs.length * k := by
  induction cs with
  | nil => simp
  | cons c tl ih =>
    simp only [List.map_cons, List.sum_cons, List.length_cons]
    rw [h c (List.mem_cons_self _ _), ih (fun d hd => h d (List.mem_cons_of_mem _ hd))]
    ring

/-- Under scheme NONE, every trimmed part has exactly the block-aligned
length, so the concatenation has length `N * blockAlignedSize`. -/
theorem flatten_trimmed_length (w h level : Nat) (cs : List KTX2Container)
    (hg : ∀ c ∈ cs, goodAt w h 0 level c = true) :
    ((cs.map (fun c =>
      (payloadAt c level).take (uastcBytesPerImageAtLevel w h level))).flatten).length
      = cs.length * uastcBytesPerImageAtLevel w h level := by
  rw [List.length_flatten, List.map_map]
  apply sum_map_const_of
  intro c hc
  obtain ⟨lvl, hl, bytes, hd, hlen⟩ := (goodAt_iff w h 0 level c).mp (hg c hc)
  simp only [Function.comp_apply, payloadAt_eq c level lvl bytes hl hd, List.length_take]
  exact Nat.min_eq_left (hlen rfl)

/-- The success case projected to a single merged level. -/
theorem merge_ok_outLevel (H : KTX2Container) (rest : List KTX2Container)
    (hvk : H.vkFormat = 0)
    (hsch : H.supercompressionScheme = 0 ∨ H.supercompressionScheme = 2)
    (hc : ∀ c ∈ rest, matchesRef H c)
    (hg : ∀ level < H.levelCount, ∀ c ∈ H :: rest,
      goodAt H.pixelWidth H.pixelHeight H.supercompressionScheme level c = true)
    (L : Nat) (hL : L < H.levelCount) :
    outLevel (mergeUASTCKTX2ToArray (H :: rest)) L = some
      (mergedLevelAt H.pixelWidth H.pixelHeight H.supercompressionScheme (H :: rest) L) := by
  rw [merge_ok_char H rest hvk hsch hc hg]
  unfold outLevel
  simp [List.getElem?_map, List.getElem?_range hL]

/-- The success case projected to the Boolean outcome. -/
theorem merge_ok_exceptOk (H : KTX2Container) (rest : List KTX2Container)
    (hvk : H.vkFormat = 0)
    (hsch : H.supercompressionScheme = 0 ∨ H.supercompressionScheme = 2)
    (hc : ∀ c ∈ rest, matchesRef H c)
    (hg : ∀ level < H.levelCount, ∀ c ∈ H :: rest,
      goodAt H.pixelWidth H.pixelHeight H.supercompressionScheme level c = true) :
    exceptOk (mergeUASTCKTX2ToArray (H :: rest)) = true := by
  rw [merge_ok_char H rest hvk hsch hc hg]
  rfl

/-- C5: every successful merge of N inputs yields an output with
`layerCount = N`, `faceCount = 1`, `pixelDepth = 0`, one merged level per
input mip level, no supercompression global data, the inputs' pixel
dimensions and level count, and input 0's format descriptor and key/value
metadata. -/
theorem C5_output_shape (cs : List KTX2Container) (out : KTX2Container)
    (hm : mergeUASTCKTX2ToArray cs = .ok out) :
    out.layerCount = cs.length ∧ out.faceCount = 1 ∧ out.pixelDepth = 0 ∧
    out.levels.length = out.levelCount ∧ out.globalData = none ∧
    (∀ c ∈ cs, out.pixelWidth = c.pixelWidth ∧ out.pixelHeight = c.pixelHeight ∧
      out.levelCount = c.levelCount) ∧
    (∀ H, cs.head? = some H → out.dataFormatDescriptor = H.dataFormatDescriptor ∧
      out.keyValue = H.keyValue) := by
  obtain ⟨H, rest, hcs, hcompat, hvk, hts, hpw, hph, hpd, hlc, hfc, hlvl, hsch, hdfd,
    hkv, hgd, hlen⟩ := merge_ok_inv cs out hm
  subst hcs
  refine ⟨hlc, hfc, hpd, by rw [hlen, hlvl], hgd, ?_, ?_⟩
  · intro c hc
    rcases List.mem_cons.mp hc with rfl | hc
    · exact ⟨hpw, hph, hlvl⟩
    · obtain ⟨h1, h2, h3, _, _⟩ := hcompat c hc
      exact ⟨by rw [hpw, h1], by rw [hph, h2], by rw [hlvl, h3]⟩
  · intro H' hH'
    rw [List.head?_cons] at hH'
    obtain rfl : H = H' := Option.some.inj hH'
    exact ⟨hdfd, hkv⟩

/-- The output record that merging `[baseNone, baseNone]` produces. -/
def outPairNone : KTX2Container :=
  { vkFormat := 0, typeSize := 1, pixelWidth := 4, pixelHeight := 4, pixelDepth := 0,
    layerCount := 2, faceCount := 1, levelCount := 1, supercompressionScheme := 0,
    dataFormatDescriptor := none, keyValue := [], globalData := none,
    levels := [{ levelData := some (List.replicate 32 7), uncompressedByteLength := some 32 }] }

/-- C5 witness: the output shape at a concrete two-input merge. -/
theorem C5_output_shape_witness :
    outPairNone.layerCount = [baseNone, baseNone].length ∧ outPairNone.faceCount = 1 ∧
    outPairNone.pixelDepth = 0 ∧
    outPairNone.levels.length = outPairNone.levelCount ∧ outPairNone.globalData = none ∧
    (∀ c ∈ [baseNone, baseNone], outPairNone.pixelWidth = c.pixelWidth ∧
      outPairNone.pixelHeight = c.pixelHeight ∧ outPairNone.levelCount = c.levelCount) ∧
    (∀ H, [baseNone, baseNone].head? = some H →
      outPairNone.dataFormatDescriptor = H.dataFormatDescriptor ∧
      outPairNone.keyValue = H.keyValue) :=
  C5_output_shape [baseNone, baseNone] outPairNone (by decide)

/-- C1: under scheme NONE, whenever every input's level payloads are present
and at least block-aligned, the merge succeeds and the merged level `L` is
the tight in-order concatenation of each input's payload trimmed to its
first `blockAlignedSize` bytes, with byte length and recorded logical size
both `N * blockAlignedSize(width,height,L)`; and whenever the first
inadequate payload (in level-major, then input order) is present but
shorter than `blockAlignedSize`, the merge fails with the truncation error
naming that input index and level (with actual and expected sizes). -/
theorem C1_scheme_none :
    (∀ (H : KTX2Container) (rest : List KTX2Container) (L : Nat),
      H.vkFormat = 0 → H.supercompressionScheme = 0 →
      (∀ c ∈ rest, matchesRef H c) →
      (∀ level < H.levelCount, ∀ c ∈ H :: rest,
        goodAt H.pixelWidth H.pixelHeight H.supercompressionScheme level c = true) →
      L < H.levelCount →
      exceptOk (mergeUASTCKTX2ToArray (H :: rest)) = true ∧
      outLevel (mergeUASTCKTX2ToArray (H :: rest)) L = some
        { levelData := some (((H :: rest).map (fun c =>
            (payloadAt c L).take (uastcBytesPerImageAtLevel H.pixelWidth H.pixelHeight L))).flatten)
          uncompressedByteLength := some
            ((H :: rest).length * uastcBytesPerImageAtLevel H.pixelWidth H.pixelHeight L) } ∧
      (((H :: rest).map (fun c =>
          (payloadAt c L).take (uastcBytesPerImageAtLevel H.pixelWidth H.pixelHeight L))).flatten).length
        = (H :: rest).length * uastcBytesPerImageAtLevel H.pixelWidth H.pixelHeight L) ∧
    (∀ (H c : KTX2Container) (rest pre post : List KTX2Container)
      (level : Nat) (lvl : KTX2Level) (bytes : List Nat),
      H.vkFormat = 0 → H.supercompressionScheme = 0 →
      (∀ d ∈ rest, matchesRef H d) →
      H :: rest = pre ++ c :: post →
      level < H.levelCount →
      (∀ l < level, ∀ d ∈ H :: rest,
        goodAt H.pixelWidth H.pixelHeight H.supercompressionScheme l d = true) →
      (∀ d ∈ pre,
        goodAt H.pixelWidth H.pixelHeight H.supercompressionScheme level d = true) →
      c.levels[level]? = some lvl → lvl.levelData = some bytes →
      bytes.length < uastcBytesPerImageAtLevel H.pixelWidth H.pixelHeight level →
      mergeUASTCKTX2ToArray (H :: rest) = .error
        (.truncatedLevel pre.length level bytes.length
          (uastcBytesPerImageAtLevel H.pixelWidth H.pixelHeight level))) := by
  constructor
  · intro H rest L hvk hs0 hc hg hL
    refine ⟨merge_ok_exceptOk H rest hvk (Or.inl hs0) hc hg, ?_, ?_⟩
    · rw [merge_ok_outLevel H rest hvk (Or.inl hs0) hc hg L hL]
      rw [hs0] at hg
      have htrim : trimmedPayloadAt H.pixelWidth H.pixelHeight 0 L = fun c =>
          (payloadAt c L).take (uastcBytesPerImageAtLevel H.pixelWidth H.pixelHeight L) := by
        funext c
        simp [trimmedPayloadAt]
      have hflat := flatten_trimmed_length H.pixelWidth H.pixelHeight L (H :: rest)
        (fun c hcm => hg L hL c hcm)
      unfold mergedLevelAt
      rw [hs0, htrim]
      simp only [reduceIte]
      rw [hflat]
    · rw [hs0] at hg
      exact flatten_trimmed_length H.pixelWidth H.pixelHeight L (H :: rest)
        (fun c hcm => hg L hL c hcm)
  · intro H c rest pre post level lvl bytes hvk hs0 hcompat hsplit hL hearlier hpre hl hd hshort
    apply merge_error_of_buildLevels H rest hvk (Or.inl hs0) hcompat
    unfold buildLevels
    rw [hs0, range_split level H.levelCount hL]
    rw [hs0] at hearlier hpre
    apply buildLevelsAux_error H.pixelWidth H.pixelHeight 0 (H :: rest)
      (List.range level) level _ _
      (fun l hlm d hdm => hearlier l (List.mem_range.mp hlm) d hdm)
    apply buildLevel_error
    rw [hsplit]
    have := collectParts_truncated H.pixelWidth H.pixelHeight level pre c post lvl bytes
      hpre hl hd hshort 0
    rw [Nat.zero_add] at this
    exact this

/-- C8: with a well-formed reference and compatible inputs, if the first
absent payload (in level-major, then input order) belongs to input
`pre.length` at mip `level`, the merge fails with the hard missing-data
error naming exactly that input index and level index, producing no
output. -/
theorem C8_missing_payload (H c : KTX2Container) (rest pre post : List KTX2Container)
    (level : Nat) (lvl : KTX2Level)
    (hvk : H.vkFormat = 0)
    (hsch : H.supercompressionScheme = 0 ∨ H.supercompressionScheme = 2)
    (hcompat : ∀ d ∈ rest, matchesRef H d)
    (hsplit : H :: rest = pre ++ c :: post)
    (hL : level < H.levelCount)
    (hearlier : ∀ l < level, ∀ d ∈ H :: rest,
      goodAt H.pixelWidth H.pixelHeight H.supercompressionScheme l d = true)
    (hpre : ∀ d ∈ pre,
      goodAt H.pixelWidth H.pixelHeight H.supercompressionScheme level d = true)
    (hl : c.levels[level]? = some lvl) (hd : lvl.levelData = none) :
    mergeUASTCKTX2ToArray (H :: rest) = .error (.missingLevelData pre.length level) := by
  apply merge_error_of_buildLevels H rest hvk hsch hcompat
  unfold buildLevels
  rw [range_split level H.levelCount hL]
  apply buildLevelsAux_error H.pixelWidth H.pixelHeight H.supercompressionScheme (H :: rest)
    (List.range level) level _ _
    (fun l hlm d hdm => hearlier l (List.mem_range.mp hlm) d hdm)
  apply buildLevel_error
  rw [hsplit]
  have := collectParts_missing H.pixelWidth H.pixelHeight H.supercompressionScheme level
    pre c post lvl hpre hl hd 0
  rw [Nat.zero_add] at this
  exact this

/-- C2: under scheme ZSTD, with all payloads present, the merge succeeds
and merged level `L` is the verbatim in-order concatenation of the inputs'
level-`L` payloads (byte length = sum of payload lengths), with recorded
logical size the sum over inputs of the declared logical size, falling
back to `blockAlignedSize` for inputs missing that field. -/
theorem C2_scheme_zstd (H : KTX2Container) (rest : List KTX2Container) (L : Nat)
    (hvk : H.vkFormat = 0) (hs2 : H.supercompressionScheme = 2)
    (hc : ∀ c ∈ rest, matchesRef H c)
    (hg : ∀ level < H.levelCount, ∀ c ∈ H :: rest,
      goodAt H.pixelWidth H.pixelHeight H.supercompressionScheme level c = true)
    (hL : L < H.levelCount) :
    exceptOk (mergeUASTCKTX2ToArray (H :: rest)) = true ∧
    outLevel (mergeUASTCKTX2ToArray (H :: rest)) L = some
      { levelData := some (((H :: rest).map (fun c => payloadAt c L)).flatten)
        uncompressedByteLength := some
          (((H :: rest).map (levelUncOf H.pixelWidth H.pixelHeight L)).sum) } ∧
    (((H :: rest).map (fun c => payloadAt c L)).flatten).length =
      ((H :: rest).map (fun c => (payloadAt c L).length)).sum := by
  refine ⟨merge_ok_exceptOk H rest hvk (Or.inr hs2) hc hg, ?_, ?_⟩
  · rw [merge_ok_outLevel H rest hvk (Or.inr hs2) hc hg L hL]
    have htrim : trimmedPayloadAt H.pixelWidth H.pixelHeight 2 L = fun c => payloadAt c L := by
      funext c
      simp [trimmedPayloadAt]
    unfold mergedLevelAt
    rw [hs2, htrim]
    simp
  · rw [List.length_flatten, List.map_map]
    congr 1

/-- C10: under ZSTD a present-but-empty payload is not treated as missing:
the merge succeeds (no missing-data error), the empty payload contributes
zero bytes to the verbatim concatenation, and that input's logical-size
contribution is its declared size, falling back to `blockAlignedSize` when
the declaration is absent. -/
theorem C10_empty_payload_zstd (H c : KTX2Container) (rest : List KTX2Container)
    (level : Nat) (lvl : KTX2Level)
    (hvk : H.vkFormat = 0) (hs2 : H.supercompressionScheme = 2)
    (hcompat : ∀ d ∈ rest, matchesRef H d)
    (hg : ∀ l < H.levelCount, ∀ d ∈ H :: rest,
      goodAt H.pixelWidth H.pixelHeight H.supercompressionScheme l d = true)
    (_hmem : c ∈ H :: rest) (hL : level < H.levelCount)
    (hl : c.levels[level]? = some lvl) (hempty : lvl.levelData = some []) :
    exceptOk (mergeUASTCKTX2ToArray (H :: rest)) = true ∧
    outLevel (mergeUASTCKTX2ToArray (H :: rest)) level = some
      { levelData := some (((H :: rest).map (fun d => payloadAt d level)).flatten)
        uncompressedByteLength := some
          (((H :: rest).map (levelUncOf H.pixelWidth H.pixelHeight level)).sum) } ∧
    payloadAt c level = [] ∧
    levelUncOf H.pixelWidth H.pixelHeight level c =
      lvl.uncompressedByteLength.getD
        (uastcBytesPerImageAtLevel H.pixelWidth H.pixelHeight level) := by
  refine ⟨merge_ok_exceptOk H rest hvk (Or.inr hs2) hcompat hg, ?_,
    payloadAt_eq c level lvl [] hl hempty,
    levelUncOf_eq H.pixelWidth H.pixelHeight level c lvl hl⟩
  rw [merge_ok_outLevel H rest hvk (Or.inr hs2) hcompat hg level hL]
  have htrim : trimmedPayloadAt H.pixelWidth H.pixelHeight 2 level =
      fun d => payloadAt d level := by
    funext d
    simp [trimmedPayloadAt]
  unfold mergedLevelAt
  rw [hs2, htrim]
  simp

/-- `baseNone` with a 17-byte payload (one byte of trailing padding). -/
def longPayload : KTX2Container := { baseNone with levels := [mkLevel 17] }

/-- `baseNone` with a 5-byte payload (shorter than the 16-byte exact size). -/
def shortPayload : KTX2Container := { baseNone with levels := [mkLevel 5] }

/-- C1 witness: the scheme-NONE shape at a concrete two-input merge (one
input carries trailing padding that gets trimmed), and the truncation error
at a concrete merge whose second input is 5 bytes short. -/
theorem C1_scheme_none_witness :
    (exceptOk (mergeUASTCKTX2ToArray [baseNone, longPayload]) = true ∧
      outLevel (mergeUASTCKTX2ToArray [baseNone, longPayload]) 0 = some
        { levelData := some (([baseNone, longPayload].map (fun c =>
            (payloadAt c 0).take
              (uastcBytesPerImageAtLevel baseNone.pixelWidth baseNone.pixelHeight 0))).flatten)
          uncompressedByteLength := some ([baseNone, longPayload].length *
            uastcBytesPerImageAtLevel baseNone.pixelWidth baseNone.pixelHeight 0) } ∧
      (([baseNone, longPayload].map (fun c =>
          (payloadAt c 0).take
            (uastcBytesPerImageAtLevel baseNone.pixelWidth baseNone.pixelHeight 0))).flatten).length
        = [baseNone, longPayload].length *
            uastcBytesPerImageAtLevel baseNone.pixelWidth baseNone.pixelHeight 0) ∧
    mergeUASTCKTX2ToArray [baseNone, shortPayload] = .error
      (.truncatedLevel [baseNone].length 0 (List.replicate 5 7).length
        (uastcBytesPerImageAtLevel baseNone.pixelWidth baseNone.pixelHeight 0)) :=
  ⟨C1_scheme_none.1 baseNone [longPayload] 0 rfl rfl (by decide) (by decide) (by decide),
   C1_scheme_none.2 baseNone shortPayload [shortPayload] [baseNone] [] 0 (mkLevel 5)
     (List.replicate 5 7) rfl rfl (by decide) rfl (by decide) (by decide) (by decide)
     (by decide) (by decide) (by decide)⟩

/-- `baseZstd` with a 2-byte payload and no declared logical size. -/
def zstdNoDecl : KTX2Container :=
  { baseZstd with levels := [{ levelData := some [9, 9], uncompressedByteLength := none }] }

/-- C2 witness: the ZSTD shape at a concrete two-input merge whose second
input lacks a declared logical size (exercising the block-aligned
fallback). -/
theorem C2_scheme_zstd_witness :
    exceptOk (mergeUASTCKTX2ToArray [baseZstd, zstdNoDecl]) = true ∧
    outLevel (mergeUASTCKTX2ToArray [baseZstd, zstdNoDecl]) 0 = some
      { levelData := some (([baseZstd, zstdNoDecl].map (fun c => payloadAt c 0)).flatten)
        uncompressedByteLength := some
          (([baseZstd, zstdNoDecl].map
            (levelUncOf baseZstd.pixelWidth baseZstd.pixelHeight 0)).sum) } ∧
    (([baseZstd, zstdNoDecl].map (fun c => payloadAt c 0)).flatten).length =
      ([baseZstd, zstdNoDecl].map (fun c => (payloadAt c 0).length)).sum :=
  C2_scheme_zstd baseZstd [zstdNoDecl] 0 rfl rfl (by decide) (by decide) (by decide)

/-- `baseZstd` with an absent level-0 payload. -/
def zstdMissing : KTX2Container :=
  { baseZstd with levels := [{ levelData := none, uncompressedByteLength := none }] }

/-- C8 witness: a concrete merge whose second input's level-0 payload is
absent fails with the missing-data error naming input 1, level 0. -/
theorem C8_missing_payload_witness :
    mergeUASTCKTX2ToArray [baseZstd, zstdMissing] = .error
      (.missingLevelData [baseZstd].length 0) :=
  C8_missing_payload baseZstd zstdMissing [zstdMissing] [baseZstd] [] 0
    { levelData := none, uncompressedByteLength := none }
    rfl (Or.inr rfl) (by decide) rfl (by decide) (by decide) (by decide) (by decide) rfl

/-- `baseZstd` with a present but empty level-0 payload and no declared
logical size. -/
def zstdEmpty : KTX2Container :=
  { baseZstd with levels := [{ levelData := some [], uncompressedByteLength := none }] }

/-- C10 witness: a concrete ZSTD merge with a present-but-empty payload
succeeds, concatenates it as zero bytes, and falls back to the
block-aligned size for its logical-size contribution. -/
theorem C10_empty_payload_zstd_witness :
    exceptOk (mergeUASTCKTX2ToArray [baseZstd, zstdEmpty]) = true ∧
    outLevel (mergeUASTCKTX2ToArray [baseZstd, zstdEmpty]) 0 = some
      { levelData := some (([baseZstd, zstdEmpty].map (fun d => payloadAt d 0)).flatten)
        uncompressedByteLength := some
          (([baseZstd, zstdEmpty].map
            (levelUncOf baseZstd.pixelWidth baseZstd.pixelHeight 0)).sum) } ∧
    payloadAt zstdEmpty 0 = [] ∧
    levelUncOf baseZstd.pixelWidth baseZstd.pixelHeight 0 zstdEmpty =
      ({ levelData := some [], uncompressedByteLength := none } : KTX2Level
        ).uncompressedByteLength.getD
        (uastcBytesPerImageAtLevel baseZstd.pixelWidth baseZstd.pixelHeight 0) :=
  C10_empty_payload_zstd baseZstd zstdEmpty [zstdEmpty] 0
    { levelData := some [], uncompressedByteLength := none }
    rfl rfl (by decide) (by decide) (by decide) (by decide) (by decide) rfl

/-- The layer loop reads only the `levels` of each container. -/
theorem collectParts_map_congr (m : KTX2Container → KTX2Container)
    (hlv : ∀ c, (m c).levels = c.levels) (w h scheme level : Nat) :
    ∀ (cs : List KTX2Container) (layer : Nat),
      collectParts w h scheme level layer (cs.map m) =
        collectParts w h scheme level layer cs := by
  intro cs
  induction cs with
  | nil => intro _; rfl
  | cons c tl ih =>
    intro layer
    simp only [List.map_cons, collectParts, hlv c, ih (layer + 1)]

theorem buildLevel_map_congr (m : KTX2Container → KTX2Container)
    (hlv : ∀ c, (m c).levels = c.levels) (w h scheme : Nat)
    (cs : List KTX2Container) (level : Nat) :
    buildLevel w h scheme (cs.map m) level = buildLevel w h scheme cs level := by
  unfold buildLevel
  rw [collectParts_map_congr m hlv w h scheme level cs 0]

theorem buildLevelsAux_map_congr (m : KTX2Container → KTX2Container)
    (hlv : ∀ c, (m c).levels = c.levels) (w h scheme : Nat)
    (cs : List KTX2Container) :
    ∀ ls : List Nat,
      buildLevelsAux w h scheme (cs.map m) ls = buildLevelsAux w h scheme cs ls := by
  intro ls
  induction ls with
  | nil => rfl
  | cons l tl ih =>
    simp only [buildLevelsAux, buildLevel_map_congr m hlv, ih]

/-- The validation loop reads only the five checked header fields. -/
theorem checkCompatible_map_congr (m : KTX2Container → KTX2Container)
    (hpw : ∀ c, (m c).pixelWidth = c.pixelWidth)
    (hph : ∀ c, (m c).pixelHeight = c.pixelHeight)
    (hlc : ∀ c, (m c).levelCount = c.levelCount)
    (hvk : ∀ c, (m c).vkFormat = c.vkFormat)
    (hsc : ∀ c, (m c).supercompressionScheme = c.supercompressionScheme)
    (w h lvls scheme : Nat) (rest : List KTX2Container) :
    checkCompatible w h lvls scheme (rest.map m) =
      checkCompatible w h lvls scheme rest := by
  induction rest with
  | nil => rfl
  | cons hi tl ih =>
    simp only [List.map_cons, checkCompatible, hpw hi, hph hi, hlc hi, hvk hi, hsc hi, ih]

/-- The merge consults nothing but the five checked header fields,
`typeSize`, `keyValue`, `levels`, and — only for the output record — the
reference's `dataFormatDescriptor`.  Any transformation preserving those
changes at most the output's descriptor. -/
theorem merge_map_congr (m : KTX2Container → KTX2Container)
    (hfields : ∀ c, (m c).pixelWidth = c.pixelWidth ∧ (m c).pixelHeight = c.pixelHeight ∧
      (m c).levelCount = c.levelCount ∧ (m c).vkFormat = c.vkFormat ∧
      (m c).supercompressionScheme = c.supercompressionScheme ∧
      (m c).typeSize = c.typeSize ∧ (m c).keyValue = c.keyValue ∧
      (m c).levels = c.levels)
    (H : KTX2Container) (rest : List KTX2Container) :
    mergeUASTCKTX2ToArray ((H :: rest).map m) =
      match mergeUASTCKTX2ToArray (H :: rest) with
      | .error e => .error e
      | .ok o => .ok { o with dataFormatDescriptor := (m H).dataFormatDescriptor } := by
  have hpw : ∀ c, (m c).pixelWidth = c.pixelWidth := fun c => (hfields c).1
  have hph : ∀ c, (m c).pixelHeight = c.pixelHeight := fun c => (hfields c).2.1
  have hlc : ∀ c, (m c).levelCount = c.levelCount := fun c => (hfields c).2.2.1
  have hvk : ∀ c, (m c).vkFormat = c.vkFormat := fun c => (hfields c).2.2.2.1
  have hsc : ∀ c, (m c).supercompressionScheme = c.supercompressionScheme :=
    fun c => (hfields c).2.2.2.2.1
  have hts : ∀ c, (m c).typeSize = c.typeSize := fun c => (hfields c).2.2.2.2.2.1
  have hkv : ∀ c, (m c).keyValue = c.keyValue := fun c => (hfields c).2.2.2.2.2.2.1
  have hlv : ∀ c, (m c).levels = c.levels := fun c => (hfields c).2.2.2.2.2.2.2
  have hccm := checkCompatible_map_congr m hpw hph hlc hvk hsc
    H.pixelWidth H.pixelHeight H.levelCount H.supercompressionScheme rest
  have hblm : buildLevels H.pixelWidth H.pixelHeight H.supercompressionScheme
      H.levelCount ((H :: rest).map m) =
      buildLevels H.pixelWidth H.pixelHeight H.supercompressionScheme
        H.levelCount (H :: rest) := by
    unfold buildLevels
    exact buildLevelsAux_map_congr m hlv _ _ _ _ _
  conv_lhs => rw [List.map_cons, mergeUASTCKTX2ToArray]
  conv_rhs => rw [mergeUASTCKTX2ToArray]
  simp only [hvk H, hsc H, hpw H, hph H, hlc H, hts H, hkv H]
  rw [show (m H :: rest.map m) = (H :: rest).map m from (List.map_cons m H rest).symm]
  rw [hccm, hblm]
  simp only [List.length_map, List.length_cons]
  by_cases h1 : H.vkFormat ≠ 0
  · simp only [if_pos h1]
  · simp only [if_neg h1]
    by_cases h2 : H.supercompressionScheme ≠ 0 ∧ H.supercompressionScheme ≠ 2
    · simp only [if_pos h2]
    · simp only [if_neg h2]
      cases hc2 : checkCompatible H.pixelWidth H.pixelHeight H.levelCount
          H.supercompressionScheme rest with
      | error e => rfl
      | ok u =>
        cases hb2 : buildLevels H.pixelWidth H.pixelHeight H.supercompressionScheme
            H.levelCount (H :: rest) with
        | error e => rfl
        | ok lv => rfl

/-- `baseNone` with a format descriptor attached. -/
def descInput : KTX2Container := { baseNone with dataFormatDescriptor := some [1, 2] }

/-- `baseNone` with a cube-map face count and an out-of-range depth. -/
def oddInput : KTX2Container := { baseNone with faceCount := 6, pixelDepth := 5 }

/-- C7 counterexample: a list whose second input has `faceCount = 6`,
`pixelDepth = 5`, and a descriptor absent while the reference's is present
is accepted and produces an output — none of these fields is validated. -/
theorem C7_unchecked_fields_cex :
    oddInput.faceCount = 6 ∧ oddInput.pixelDepth = 5 ∧
    descInput.dataFormatDescriptor = some [1, 2] ∧
    oddInput.dataFormatDescriptor = none ∧
    exceptOk (mergeUASTCKTX2ToArray [descInput, oddInput]) = true := by
  decide

/-- C7 (amended): the merge never rejects based on `faceCount`,
`pixelDepth`, or `formatDescriptor`: its result is unchanged under
arbitrary per-input rewrites of `faceCount` and `pixelDepth`, and its
acceptance is unchanged when the inputs' descriptors are additionally
rewritten arbitrarily (the validator checks only `pixelWidth`,
`pixelHeight`, `levelCount`, `pixelFormatTag`, and the scheme). -/
theorem C7_validation_scope (cs : List KTX2Container)
    (φ ψ : KTX2Container → Nat) (δ : KTX2Container → Option (List Nat)) :
    mergeUASTCKTX2ToArray (cs.map fun c => { c with faceCount := φ c, pixelDepth := ψ c })
      = mergeUASTCKTX2ToArray cs ∧
    exceptOk (mergeUASTCKTX2ToArray (cs.map fun c =>
        { c with faceCount := φ c, pixelDepth := ψ c, dataFormatDescriptor := δ c }))
      = exceptOk (mergeUASTCKTX2ToArray cs) := by
  constructor
  · cases cs with
    | nil => rfl
    | cons H rest =>
      rw [merge_map_congr (fun c => { c with faceCount := φ c, pixelDepth := ψ c })
        (fun c => by exact ⟨rfl, rfl, rfl, rfl, rfl, rfl, rfl, rfl⟩) H rest]
      cases hm : mergeUASTCKTX2ToArray (H :: rest) with
      | error e => rfl
      | ok o =>
        obtain ⟨H', rest', hcs, _, _, _, _, _, _, _, _, _, _, hdfd, _, _, _⟩ :=
          merge_ok_inv _ _ hm
        injection hcs with e1 e2
        subst e1
        have hd2 : ({ H with faceCount := φ H, pixelDepth := ψ H } :
            KTX2Container).dataFormatDescriptor = o.dataFormatDescriptor := by
          rw [hdfd]
        rw [hd2]
  · cases cs with
    | nil => rfl
    | cons H rest =>
      rw [merge_map_congr (fun c =>
          { c with faceCount := φ c, pixelDepth := ψ c, dataFormatDescriptor := δ c })
        (fun c => by refine ⟨rfl, rfl, rfl, rfl, rfl, rfl, rfl, rfl⟩) H rest]
      cases mergeUASTCKTX2ToArray (H :: rest) with
      | error e => rfl
      | ok o => rfl
